import Mathlib

/-!
Verification of the job-triage scoring and persistence subsystem.

The definitions below are a shallow embedding of the TypeScript sources:
`src/background/scorer.ts` (keyword extraction and the keyword/role/location
scoring engine) and the IndexedDB storage layer (`JobStorage` v2: bulk save,
bulk delete, URL batch lookup, and the three cache-eviction policies).
JavaScript numbers are modelled as exact rationals, JS `Set` insertion as
order-preserving duplicate-free list insertion, string operations as
character-list operations, and the asynchronous IndexedDB store as a list of
records keyed by `id` (IndexedDB key order), with mutation operations
returning the resulting store; `saveMany`/`deleteMany` additionally report
how many IndexedDB transactions the call opens.
-/

namespace JobTriage

/-! ## String primitives (models of the JS string operations used) -/

/-- Whitespace characters recognised by JS `trim` / `\s` (ASCII subset). -/
def jsWhitespace (c : Char) : Bool :=
  c == ' ' || c == '\t' || c == '\n' || c == '\r' || c == '\x0b' || c == '\x0c'

/-- Model of `s.trim().length === 0` (also true for the empty string,
matching the `!text` / `!job.description` falsy checks). -/
def isBlank (s : String) : Bool := s.data.all jsWhitespace

/-- Model of JS `toLowerCase` (ASCII). -/
def lowerStr (s : String) : String := ⟨s.data.map Char.toLower⟩

/-- `leadsWith pat l` : `pat` is an initial segment of `l`. -/
def leadsWith : List Char → List Char → Bool
  | [], _ => true
  | _ :: _, [] => false
  | a :: as, b :: bs => a == b && leadsWith as bs

/-- `hasSub pat l` : `pat` occurs contiguously inside `l`. -/
def hasSub (pat : List Char) : List Char → Bool
  | [] => pat.isEmpty
  | c :: rest => leadsWith pat (c :: rest) || hasSub pat rest

/-- Model of JS `s.includes(pat)`. -/
def strContains (s pat : String) : Bool := hasSub pat.data s.data

/-- Model of JS `s.slice(0, n)`. -/
def strTake (s : String) (n : ℕ) : String := ⟨s.data.take n⟩

/-- The separator class of the tokenizing regex `[\s,;.!?()[\]{}'"]+`. -/
def jsSeparator (c : Char) : Bool :=
  jsWhitespace c || c == ',' || c == ';' || c == '.' || c == '!' || c == '?' ||
  c == '(' || c == ')' || c == '[' || c == ']' || c == '\x7b' || c == '\x7d' ||
  c == '\x27' || c == '\x22'

/-- Accumulating tokenizer: split on separator runs, dropping empty pieces
(the JS code splits and then filters `token.length > 0`). -/
def tokenizeAux : List Char → List Char → List String
  | [], cur => if cur.isEmpty then [] else [⟨cur.reverse⟩]
  | c :: rest, cur =>
    if jsSeparator c then
      if cur.isEmpty then tokenizeAux rest [] else ⟨cur.reverse⟩ :: tokenizeAux rest []
    else tokenizeAux rest (c :: cur)

def tokenize (s : String) : List String := tokenizeAux s.data []

/-- Model of JS `Set.add`: append if not already present (JS `Set`
iteration order is insertion order). -/
def insertUnique (l : List String) (s : String) : List String :=
  if s ∈ l then l else l ++ [s]

/-- Model of JS `s.join(", ")`. -/
def joinComma : List String → String
  | [] => ""
  | [s] => s
  | s :: t :: rest => s ++ ", " ++ joinComma (t :: rest)

/-! ## Scorer constants (`TECH_KEYWORDS`, `STOP_WORDS`, `ROLE_KEYWORDS`,
`LOCATION_KEYWORDS` from `scorer.ts`, in source order) -/

def techLanguages : List String :=
  ["python", "java", "javascript", "typescript", "go", "golang", "rust",
   "c++", "cpp", "c#", "csharp", "ruby", "php", "swift", "kotlin",
   "scala", "elixir", "clojure", "haskell", "r", "matlab", "sql"]

def techFrameworks : List String :=
  ["react", "vue", "angular", "svelte", "next.js", "nextjs",
   "django", "flask", "fastapi", "spring", "spring boot", "springboot",
   "express", "nestjs", "rails", "laravel",
   "kafka", "flink", "spark", "hadoop",
   "kubernetes", "k8s", "docker", "terraform",
   "pytorch", "tensorflow", "scikit-learn", "sklearn"]

def techCloud : List String :=
  ["aws", "amazon web services", "azure", "gcp", "google cloud",
   "ec2", "s3", "lambda", "cloudformation",
   "eks", "ecs", "rds", "dynamodb", "redshift"]

def techDatabases : List String :=
  ["postgresql", "postgres", "mysql", "mongodb", "redis",
   "cassandra", "elasticsearch", "dynamodb", "sqlite",
   "oracle", "sql server", "mariadb", "couchbase"]

def techTools : List String :=
  ["git", "github", "gitlab", "bitbucket",
   "jenkins", "circleci", "github actions",
   "datadog", "grafana", "prometheus", "splunk",
   "nginx", "apache", "graphql", "rest", "grpc"]

def techConcepts : List String :=
  ["distributed systems", "microservices", "machine learning", "ml",
   "artificial intelligence", "ai", "deep learning",
   "devops", "sre", "site reliability", "ci/cd",
   "data engineering", "data science", "analytics",
   "backend", "frontend", "full stack", "full-stack",
   "api design", "system design", "scalability",
   "reliability", "observability", "monitoring"]

/-- All tech keywords, spread in the source's category order. -/
def allTechKeywords : List String :=
  techLanguages ++ techFrameworks ++ techCloud ++ techDatabases ++
    techTools ++ techConcepts

def stopWords : List String :=
  ["the", "a", "an", "and", "or", "but", "in", "on", "at", "to", "for",
   "of", "with", "by", "from", "as", "is", "was", "are", "were", "be",
   "been", "being", "have", "has", "had", "do", "does", "did", "will",
   "would", "should", "could", "may", "might", "must", "can", "about",
   "into", "through", "during", "before", "after", "above", "below",
   "between", "under", "again", "further", "then", "once", "here", "there",
   "when", "where", "why", "how", "all", "both", "each", "few", "more",
   "most", "other", "some", "such", "no", "nor", "not", "only", "own",
   "same", "so", "than", "too", "very", "this", "that", "these", "those"]

/-- Role categories with their keyword lists, in `Object.entries` order. -/
def roleCategories : List (String × List String) :=
  [("backend", ["backend", "back-end", "back end", "server", "api", "microservices"]),
   ("frontend", ["frontend", "front-end", "front end", "ui", "ux", "web", "react", "vue", "angular"]),
   ("fullstack", ["full stack", "full-stack", "fullstack"]),
   ("platform", ["platform", "infrastructure", "infra", "devops", "sre", "site reliability"]),
   ("data", ["data engineer", "data engineering", "data science", "data scientist", "ml engineer", "analytics"]),
   ("mobile", ["mobile", "ios", "android", "react native", "flutter"]),
   ("embedded", ["embedded", "firmware", "iot", "hardware"]),
   ("security", ["security", "cybersecurity", "infosec", "appsec"])]

def remoteKeywords : List String :=
  ["remote", "work from home", "wfh", "distributed", "anywhere", "virtual"]

def hybridKeywords : List String :=
  ["hybrid", "flexible", "flex", "office optional", "remote friendly"]

def onsiteKeywords : List String :=
  ["onsite", "on-site", "in office", "in-office", "office"]

/-! ## Keyword extraction (`extractKeywords`) -/

/-- `extractKeywords` from `scorer.ts`: lowercase, match multi-word
taxonomy phrases by substring first, then tokenize and match single-token
keywords (dropping stop words and tokens shorter than 2 characters);
collect into a JS `Set` (deduplicated, insertion order). -/
def extractKeywords (text : String) : List String :=
  if isBlank text then []
  else
    let normalized := lowerStr text
    let multi := allTechKeywords.filter
      (fun k => strContains k " " && strContains normalized k)
    let tokens := tokenize normalized
    let singles := tokens.filter
      (fun t => !(decide (t ∈ stopWords)) && !(decide (t.length < 2)) &&
        decide (t ∈ allTechKeywords))
    (multi ++ singles).foldl insertUnique []

/-! ## Component scores -/

structure KeywordMatches where
  matched : List String
  missing : List String
  total : ℕ
deriving DecidableEq, Repr

structure KeywordScoreResult where
  score : ℚ
  kwMatches : KeywordMatches
deriving DecidableEq, Repr

/-- `computeKeywordScore` from `scorer.ts`. -/
def computeKeywordScore (jobDescription : String)
    (resumeKeywords preferredStacks : List String) : KeywordScoreResult :=
  let jobKeywords := extractKeywords jobDescription
  let preferredKeywords := preferredStacks.map lowerStr
  let matched := jobKeywords.filter
    (fun k => decide (k ∈ resumeKeywords) || decide (k ∈ preferredKeywords))
  let totalImportantKeywords :=
    ((resumeKeywords ++ preferredKeywords).foldl insertUnique []).length
  let matchCount := matched.length
  let preferredMatches :=
    (matched.filter (fun k => decide (k ∈ preferredKeywords))).length
  let effectiveMatches : ℚ := (matchCount : ℚ) + (preferredMatches : ℚ) * (1/2)
  let score : ℚ :=
    if 0 < totalImportantKeywords then
      min 1 (effectiveMatches / (totalImportantKeywords : ℚ))
    else 0
  let allImportant := (resumeKeywords ++ preferredKeywords).foldl insertUnique []
  let missing := (allImportant.filter (fun k => !(decide (k ∈ matched)))).take 5
  { score := score,
    kwMatches :=
      { matched := matched, missing := missing, total := totalImportantKeywords } }

structure RoleScoreResult where
  score : ℚ
  matchedRole : Option String
  mismatchedRole : Option String
deriving DecidableEq, Repr

/-- `computeRoleScore` from `scorer.ts`: fold over the role categories in
iteration order, with max/min folding of the running best score. -/
def computeRoleScore (jobTitle jobDescription : String)
    (preferredRoles : List String) : RoleScoreResult :=
  let normalizedTitle := lowerStr jobTitle
  let normalizedDescription := lowerStr jobDescription
  let normalizedPreferences := preferredRoles.map lowerStr
  roleCategories.foldl
    (fun acc cat =>
      let isPreferred := normalizedPreferences.any (fun pref => strContains pref cat.1)
      let titleMatch := cat.2.any (fun k => strContains normalizedTitle k)
      let descriptionMatch :=
        cat.2.any (fun k => strContains (strTake normalizedDescription 500) k)
      if titleMatch then
        if isPreferred then
          { acc with score := max acc.score 1, matchedRole := some cat.1 }
        else
          { acc with score := min acc.score (-(1/2 : ℚ)), mismatchedRole := some cat.1 }
      else if descriptionMatch then
        if isPreferred then
          { acc with score := max acc.score (1/2), matchedRole := some cat.1 }
        else acc
      else acc)
    { score := 0, matchedRole := none, mismatchedRole := none }

structure LocationPreferences where
  remote : Bool
  hybrid : Bool
  onsite : Bool
  cities : List String
deriving DecidableEq, Repr

structure LocationScoreResult where
  score : ℚ
  matchType : Option String
deriving DecidableEq, Repr

/-- The combined location/description text: `` `${jobLocation || ''} ${jobDescription}` ``
lowercased. -/
def locText (jobLocation : Option String) (jobDescription : String) : String :=
  lowerStr ((jobLocation.getD "") ++ " " ++ jobDescription)

/-- `computeLocationScore` from `scorer.ts`, preserving the check order
(remote, then hybrid, then preferred cities, then onsite, then the
unknown-location fallthrough). -/
def computeLocationScore (jobLocation : Option String) (jobDescription : String)
    (lp : LocationPreferences) : LocationScoreResult :=
  let text := locText jobLocation jobDescription
  let isRemote := remoteKeywords.any (fun k => strContains text k)
  if isRemote then
    if lp.remote then { score := 1, matchType := some "remote" }
    else if lp.hybrid then { score := 1/2, matchType := some "remote (acceptable)" }
    else { score := -(1/2), matchType := some "remote (not preferred)" }
  else
    let isHybrid := hybridKeywords.any (fun k => strContains text k)
    if isHybrid && lp.hybrid then { score := 1, matchType := some "hybrid" }
    else if isHybrid && lp.remote then
      { score := 1/2, matchType := some "hybrid (acceptable)" }
    else if isHybrid && lp.onsite then
      { score := 1/2, matchType := some "hybrid (acceptable)" }
    else
      match lp.cities.find? (fun city => strContains text (lowerStr city)) with
      | some matchedCity =>
        { score := 1, matchType := some ("onsite (" ++ matchedCity ++ ")") }
      | none =>
        let isOnsite := onsiteKeywords.any (fun k => strContains text k)
        if isOnsite then
          if lp.onsite then { score := 1/2, matchType := some "onsite" }
          else { score := -5, matchType := some "onsite (dealbreaker)" }
        else if !lp.onsite && !lp.remote && !lp.hybrid then
          { score := 0, matchType := none }
        else if (lp.remote || lp.hybrid) && !lp.onsite then
          { score := -(1/2), matchType := some "location unclear" }
        else { score := 0, matchType := none }

/-! ## Reasons and the composite score (`generateReasons`, `scoreJob`) -/

structure ScoringBreakdown where
  keyword : ℚ
  role : ℚ
  location : ℚ
  baseline : ℚ
deriving DecidableEq, Repr

structure ScoringResult where
  score : ℚ
  reasons : List String
  breakdown : ScoringBreakdown
deriving DecidableEq, Repr

/-- `generateReasons` from `scorer.ts`. -/
def generateReasons (breakdown : ScoringBreakdown) (keywordMatches : KeywordMatches)
    (roleMatch : RoleScoreResult) (locationMatch : LocationScoreResult) :
    List String :=
  let r1 : List String :=
    if 0 < keywordMatches.matched.length then
      ["✓ Strong match: " ++ joinComma (keywordMatches.matched.take 3)]
    else []
  let r2 : List String :=
    match roleMatch.matchedRole with
    | some role => ["✓ Role match: " ++ role]
    | none =>
      match roleMatch.mismatchedRole with
      | some role => ["⚠ Role mismatch: " ++ role ++ " (not preferred)"]
      | none => []
  let r3 : List String :=
    match locationMatch.matchType with
    | some t =>
      if (1/2 : ℚ) ≤ breakdown.location then ["✓ Location: " ++ t]
      else if breakdown.location < 0 then ["⚠ Location: " ++ t]
      else []
    | none => []
  let r4 : List String :=
    if 0 < keywordMatches.missing.length ∧
        keywordMatches.matched.length < keywordMatches.total then
      ["⚠ Missing: " ++ joinComma (keywordMatches.missing.take 2)]
    else []
  let reasons := r1 ++ r2 ++ r3 ++ r4
  let reasons :=
    if reasons.isEmpty then ["⚠ Limited information available for scoring"]
    else reasons
  reasons.take 5

structure ScoringWeights where
  similarity : ℚ
  keyword : ℚ
  role : ℚ
  location : ℚ
deriving DecidableEq, Repr

structure Settings where
  resume : String
  preferredStacks : List String
  preferredRoles : List String
  locationPreferences : LocationPreferences
  scoringWeights : ScoringWeights
  scoreThreshold : ℚ
deriving DecidableEq, Repr

/-- `Partial<Job>` as consumed by the scorer: every field optional. -/
structure JobInput where
  id : Option String := none
  url : Option String := none
  title : Option String := none
  description : Option String := none
  company : Option String := none
  location : Option String := none
deriving DecidableEq, Repr

/-- JS `Math.round(x * 10) / 10` (round to one decimal place);
`Math.round x = ⌊x + 1/2⌋`. -/
def jsRound1 (x : ℚ) : ℚ := ((⌊x * 10 + 1/2⌋ : ℤ) : ℚ) / 10

/-- `scoreJob` from `scorer.ts`. -/
def scoreJob (job : JobInput) (settings : Settings) : ScoringResult :=
  if isBlank ((job.description).getD "") then
    { score := 0,
      reasons := ["⚠ No job description available"],
      breakdown := { keyword := 0, role := 0, location := 0, baseline := 0 } }
  else
    let description := (job.description).getD ""
    let resumeKeywords := extractKeywords settings.resume
    let keywordResult :=
      computeKeywordScore description resumeKeywords settings.preferredStacks
    let roleResult :=
      computeRoleScore ((job.title).getD "") description settings.preferredRoles
    let locationResult :=
      computeLocationScore job.location description settings.locationPreferences
    let breakdown : ScoringBreakdown :=
      { keyword := keywordResult.score, role := roleResult.score,
        location := locationResult.score, baseline := 6 }
    let weights := settings.scoringWeights
    let finalScore :=
      max 0 (min 10
        (breakdown.baseline + weights.keyword * breakdown.keyword * 10 +
          weights.role * breakdown.role * 10 +
          weights.location * breakdown.location * 10))
    { score := jsRound1 finalScore,
      reasons := generateReasons breakdown keywordResult.kwMatches roleResult locationResult,
      breakdown := breakdown }

/-- `scoreJobs` from `scorer.ts`: `Promise.all(jobs.map(job => scoreJob(job, settings)))`;
`scoreJob` is total, so every element resolves to its own score. -/
def scoreJobs (jobs : List JobInput) (settings : Settings) : List ScoringResult :=
  jobs.map (fun job => scoreJob job settings)

/-! ## The storage layer (`JobStorage`, schema v2) -/

inductive Decision where
  | thumbs_up : Decision
  | thumbs_down : Decision
deriving DecidableEq, Repr

/-- A persisted `Job` record (`types.ts`); timestamps are epoch
milliseconds. -/
structure Job where
  id : String
  url : String
  title : String
  description : String
  company : Option String := none
  location : Option String := none
  score : Option ℚ := none
  reasons : Option (List String) := none
  decision : Option Decision := none
  notes : Option String := none
  tags : Option (List String) := none
  firstSeen : ℤ
  lastUpdated : ℤ
deriving DecidableEq, Repr

/-- `job.score || 0`, as used by the prune comparator. -/
def scoreVal (j : Job) : ℚ := j.score.getD 0

/-- The order induced by the JS comparator
`(b.score || 0) - (a.score || 0)`: descending by score. -/
def scoreGE (a b : Job) : Prop := scoreVal b ≤ scoreVal a

instance : DecidableRel scoreGE :=
  fun a b => inferInstanceAs (Decidable (scoreVal b ≤ scoreVal a))

instance : IsTotal Job scoreGE := ⟨fun a b => le_total (scoreVal b) (scoreVal a)⟩

instance : IsTrans Job scoreGE := ⟨fun _ _ _ hab hbc => le_trans hbc hab⟩

/-- The effect of `deleteMany` on the store: remove each listed primary
key (deleting a missing key is a successful no-op in IndexedDB). -/
def deleteManyStore (s : List Job) (ids : List String) : List Job :=
  s.filter (fun j => !(decide (j.id ∈ ids)))

/-- `JobStorage.deleteMany`: opens one readwrite transaction — created
before the loop over keys, hence also for an empty key list — issues the
deletes, and resolves. Returns the resulting store together with the
number of transactions the call opened. -/
def deleteMany (s : List Job) (ids : List String) : Except String (List Job) × ℕ :=
  (Except.ok (deleteManyStore s ids), 1)

/-- A single `store.put`: upsert by the primary key `id`; rejects with a
constraint error when the unique `url` index would be violated by a record
with a different `id`. -/
def putJob (s : List Job) (j : Job) : Except String (List Job) :=
  if s.any (fun k => k.url == j.url && !(k.id == j.id)) then
    Except.error "ConstraintError"
  else if s.any (fun k => k.id == j.id) then
    Except.ok (s.map (fun k => if k.id == j.id then j else k))
  else Except.ok (s ++ [j])

/-- `JobStorage.saveMany`: one readwrite transaction (opened before the
loop, so also for an empty batch); either every put applies or — on a put
error — the transaction aborts and rejects, leaving the store unchanged. -/
def saveMany (s : List Job) (jobs : List Job) : Except String (List Job) × ℕ :=
  (jobs.foldlM putJob s, 1)

/-- `JobStorage.pruneByScore`: sort the score-bearing records descending
by score (the ES2019 stable sort is modelled by a stable insertion sort)
and delete everything past the first `keepTopN`; if at most `keepTopN`
records carry a score, return without deleting. -/
def pruneByScore (s : List Job) (keepTopN : ℕ) : List Job :=
  let sorted := List.insertionSort scoreGE (s.filter (fun j => j.score.isSome))
  if sorted.length ≤ keepTopN then s
  else deleteManyStore s ((sorted.drop keepTopN).map Job.id)

def MS_PER_DAY : ℤ := 86400000

/-- `JobStorage.deleteDecided`: delete the records that carry a decision
and whose `lastUpdated` is strictly before the cutoff
`now - olderThanDays` days; `Date.now()` is passed explicitly as `now`. -/
def deleteDecided (s : List Job) (now olderThanDays : ℤ) : List Job :=
  let cutoffTime := now - olderThanDays * MS_PER_DAY
  deleteManyStore s
    ((s.filter (fun j => j.decision.isSome && decide (j.lastUpdated < cutoffTime))).map Job.id)

/-- `JobStorage.getByUrls`: one `index.get(url)` per input url on the
unique `url` index; a found record is pushed, a miss contributes nothing,
and an individual request error is likewise skipped (its `onerror` handler
only advances the completion counter), so the call always resolves.
`fails` is an oracle marking which individual lookups error. -/
def getByUrlsWithFaults (s : List Job) (urls : List String)
    (fails : String → Bool) : List Job :=
  urls.filterMap
    (fun url => if fails url then none else s.find? (fun j => j.url == url))

/-- `JobStorage.getByUrls` in the error-free run. -/
def getByUrls (s : List Job) (urls : List String) : List Job :=
  getByUrlsWithFaults s urls (fun _ => false)

/-! ## Spec-side formulas (written from the spec's words, to be compared
with the embedded code) -/

/-- The composite score exactly as the spec words it:
`clamp(0, 10, 6.0 + 10*(weights.keyword*keywordScore + weights.role*roleScore
+ weights.location*locationScore))`, where the three component scores are
the ones computed from the listing and the settings, rounded to one
decimal place. -/
def compositeSpec (job : JobInput) (settings : Settings) : ℚ :=
  let description := (job.description).getD ""
  let keywordScore :=
    (computeKeywordScore description (extractKeywords settings.resume)
      settings.preferredStacks).score
  let roleScore :=
    (computeRoleScore ((job.title).getD "") description settings.preferredRoles).score
  let locationScore :=
    (computeLocationScore job.location description settings.locationPreferences).score
  let w := settings.scoringWeights
  jsRound1 (max 0 (min 10
    (6 + 10 * (w.keyword * keywordScore + w.role * roleScore +
      w.location * locationScore))))

/-- The keyword score exactly as the spec words it: with `R` the keyword
set extracted from the resume, `P` the lowercased preferred-stack terms
and `M` the intersection of the listing's extracted keywords with `R ∪ P`,
the score is `min 1 ((|M| + 0.5*|M ∩ P|) / |R ∪ P|)`, and `0` when
`R ∪ P` is empty. -/
def keywordScoreSpec (jobDescription resume : String)
    (preferredStacks : List String) : ℚ :=
  let R := (extractKeywords resume).toFinset
  let P := (preferredStacks.map lowerStr).toFinset
  let M := (extractKeywords jobDescription).toFinset ∩ (R ∪ P)
  if R ∪ P = ∅ then 0
  else min 1 (((M.card : ℚ) + (1/2) * ((M ∩ P).card : ℚ)) / ((R ∪ P).card : ℚ))

/-- A settings record used to instantiate theorems with hypotheses. -/
def sampleSettings : Settings :=
  { resume := "Python, Django, distributed systems",
    preferredStacks := ["Kafka"],
    preferredRoles := ["Backend"],
    locationPreferences := { remote := true, hybrid := true, onsite := false, cities := [] },
    scoringWeights := { similarity := 6/10, keyword := 2/10, role := 1/10, location := 1/10 },
    scoreThreshold := 7 }

/-! ## Score boundedness and the blank-description short circuit -/

theorem jsRound1_bounds {x : ℚ} (h0 : 0 ≤ x) (h10 : x ≤ 10) :
    0 ≤ jsRound1 x ∧ jsRound1 x ≤ 10 := by
  unfold jsRound1
  constructor
  · have h1 : (0 : ℤ) ≤ ⌊x * 10 + 1/2⌋ := Int.floor_nonneg.mpr (by linarith)
    have h2 : (0 : ℚ) ≤ ((⌊x * 10 + 1/2⌋ : ℤ) : ℚ) := by exact_mod_cast h1
    positivity
  · have h2 : ⌊x * 10 + 1/2⌋ ≤ 100 := by
      have hle : x * 10 + 1/2 ≤ (201 : ℚ)/2 := by linarith
      have h100 : ⌊(201 : ℚ)/2⌋ = 100 := by
        rw [Int.floor_eq_iff]
        norm_num
      calc ⌊x * 10 + 1/2⌋ ≤ ⌊(201 : ℚ)/2⌋ := Int.floor_le_floor hle
        _ = 100 := h100
    rw [div_le_iff₀ (by norm_num : (0 : ℚ) < 10)]
    have : ((⌊x * 10 + 1/2⌋ : ℤ) : ℚ) ≤ 100 := by exact_mod_cast h2
    linarith

/-- C1: for every job input — any incomplete listing, including a missing
title, location, or description — and every settings record, `scoreJob`
returns a score inside the closed interval `[0, 10]`. -/
theorem scoreJob_score_in_range (job : JobInput) (settings : Settings) :
    0 ≤ (scoreJob job settings).score ∧ (scoreJob job settings).score ≤ 10 := by
  unfold scoreJob
  by_cases hb : isBlank ((job.description).getD "") = true
  · simp only [hb, if_true]
    exact ⟨le_refl 0, by norm_num⟩
  · simp only [hb, if_false, Bool.false_eq_true]
    exact jsRound1_bounds (le_max_left _ _) (max_le (by norm_num) (min_le_left _ _))

/-- Helper: the short-circuit branch of `scoreJob` in full. -/
theorem scoreJob_of_blank (job : JobInput) (settings : Settings)
    (h : isBlank ((job.description).getD "") = true) :
    scoreJob job settings =
      { score := 0, reasons := ["⚠ No job description available"],
        breakdown := { keyword := 0, role := 0, location := 0, baseline := 0 } } := by
  unfold scoreJob
  simp only [h, if_true]

/-- C5: for every settings record and every job whose description is
absent, empty or whitespace-only, `scoreJob` short-circuits to the
constant result — score `0`, exactly one explanation string, all
breakdown components `0` — so none of the keyword/role/location scoring
steps contributes. -/
theorem scoreJob_blank_description (job : JobInput) (settings : Settings)
    (h : isBlank ((job.description).getD "") = true) :
    scoreJob job settings =
      { score := 0, reasons := ["⚠ No job description available"],
        breakdown := { keyword := 0, role := 0, location := 0, baseline := 0 } } ∧
    (scoreJob job settings).reasons.length = 1 :=
  ⟨scoreJob_of_blank job settings h, by rw [scoreJob_of_blank job settings h]; rfl⟩

theorem scoreJob_blank_description_witness :
    scoreJob { description := some "   " } sampleSettings =
      { score := 0, reasons := ["⚠ No job description available"],
        breakdown := { keyword := 0, role := 0, location := 0, baseline := 0 } } ∧
    (scoreJob { description := some "   " } sampleSettings).reasons.length = 1 :=
  scoreJob_blank_description { description := some "   " } sampleSettings (by decide)

/-! ## The composite-score formula -/

/-- C2 (amended): for every job whose description is non-empty after
trimming whitespace, the returned score equals the spec's composite
formula `clamp(0, 10, 6.0 + 10*(wk*keyword + wr*role + wl*location))`
rounded to one decimal place. -/
theorem scoreJob_composite_formula (job : JobInput) (settings : Settings)
    (h : isBlank ((job.description).getD "") = false) :
    (scoreJob job settings).score = compositeSpec job settings := by
  unfold scoreJob compositeSpec
  simp only [h, if_false, Bool.false_eq_true]
  congr 1
  congr 1
  congr 1
  ring

theorem scoreJob_composite_formula_witness :
    (scoreJob { description := some "python" } sampleSettings).score =
      compositeSpec { description := some "python" } sampleSettings :=
  scoreJob_composite_formula { description := some "python" } sampleSettings (by decide)

def cexJob : JobInput := { description := some " " }

def cexSettings : Settings :=
  { resume := "", preferredStacks := [], preferredRoles := [],
    locationPreferences := { remote := false, hybrid := false, onsite := false, cities := [] },
    scoringWeights := { similarity := 0, keyword := 0, role := 0, location := 0 },
    scoreThreshold := 7 }

theorem jsRound1_six : jsRound1 6 = 6 := by
  unfold jsRound1
  have h1 : (6 : ℚ) * 10 + 1/2 = 121/2 := by norm_num
  rw [h1]
  have hf : ⌊(121 : ℚ)/2⌋ = 60 := by
    rw [Int.floor_eq_iff]
    norm_num
  rw [hf]
  norm_num

/-- C2 counterexample: a whitespace-only description is a non-empty
string, yet `scoreJob` short-circuits to `0` while the spec's composite
formula yields the baseline `6`. -/
theorem scoreJob_composite_formula_cex :
    cexJob.description = some " " ∧ (" " : String) ≠ "" ∧
    (scoreJob cexJob cexSettings).score = 0 ∧
    compositeSpec cexJob cexSettings = 6 := by
  refine ⟨rfl, by decide, ?_, ?_⟩
  · rw [scoreJob_of_blank cexJob cexSettings (by decide)]
  · dsimp only [compositeSpec, cexSettings]
    generalize (computeKeywordScore ((cexJob.description).getD "")
      (extractKeywords "") []).score = ks
    generalize (computeRoleScore ((cexJob.title).getD "") ((cexJob.description).getD "")
      []).score = rs
    generalize (computeLocationScore cexJob.location ((cexJob.description).getD "")
      { remote := false, hybrid := false, onsite := false, cities := [] }).score = ls
    have harg : (6 : ℚ) + 10 *
        ((0 : ℚ) * ks + (0 : ℚ) * rs + (0 : ℚ) * ls) = 6 := by ring
    rw [harg, min_eq_right (by norm_num : (6 : ℚ) ≤ 10),
      max_eq_right (by norm_num : (0 : ℚ) ≤ 6), jsRound1_six]

/-! ## The unknown-location fallthrough -/

/-- C4 (amended): when the combined location+description text matches none
of the remote/hybrid/onsite keyword sets and none of the user's preferred
cities, the location score is `-0.5` exactly when the user prefers remote
or hybrid while not accepting onsite; in every other case — including a
user whose only expressed preference is onsite — it is `0.0`. -/
theorem locationScore_unknown_text (loc : Option String) (desc : String)
    (lp : LocationPreferences)
    (hr : remoteKeywords.any (fun k => strContains (locText loc desc) k) = false)
    (hh : hybridKeywords.any (fun k => strContains (locText loc desc) k) = false)
    (hc : lp.cities.find? (fun city => strContains (locText loc desc) (lowerStr city)) = none)
    (ho : onsiteKeywords.any (fun k => strContains (locText loc desc) k) = false) :
    (computeLocationScore loc desc lp).score =
      if (lp.remote || lp.hybrid) && !lp.onsite then -(1/2 : ℚ) else 0 := by
  rcases lp with ⟨r, hy, o, cs⟩
  dsimp only at hc
  unfold computeLocationScore
  simp only [hr, hh, ho, hc, Bool.false_and, Bool.and_false, Bool.false_eq_true, if_false]
  cases r <;> cases hy <;> cases o <;> simp

theorem locationScore_unknown_text_witness :
    (computeLocationScore none "qqq" (LocationPreferences.mk true false false [])).score =
      if (true || false) && !false then -(1/2 : ℚ) else 0 :=
  locationScore_unknown_text none "qqq" (LocationPreferences.mk true false false [])
    (by decide) (by decide) (by decide) (by decide)

/-! ## The keyword-score formula -/

theorem insertUnique_toFinset (l : List String) (s : String) :
    (insertUnique l s).toFinset = insert s l.toFinset := by
  unfold insertUnique
  split
  · next h => rw [Finset.insert_eq_self.mpr (List.mem_toFinset.mpr h)]
  · next h =>
    rw [List.toFinset_append]
    ext x
    simp [or_comm]

theorem insertUnique_nodup {l : List String} (h : l.Nodup) (s : String) :
    (insertUnique l s).Nodup := by
  unfold insertUnique
  split
  · exact h
  · next hmem =>
    simp [List.nodup_append, h, hmem]

theorem foldl_insertUnique_nodup (l : List String) :
    ∀ acc : List String, acc.Nodup → (l.foldl insertUnique acc).Nodup := by
  induction l with
  | nil => intro acc h; exact h
  | cons x xs ih => intro acc h; exact ih _ (insertUnique_nodup h x)

theorem foldl_insertUnique_toFinset (l : List String) :
    ∀ acc : List String, (l.foldl insertUnique acc).toFinset = acc.toFinset ∪ l.toFinset := by
  induction l with
  | nil => intro acc; simp
  | cons x xs ih =>
    intro acc
    rw [List.foldl_cons, ih, insertUnique_toFinset]
    ext a
    simp


theorem extractKeywords_nodup (text : String) : (extractKeywords text).Nodup := by
  unfold extractKeywords
  split
  · exact List.nodup_nil
  · exact foldl_insertUnique_nodup _ _ List.nodup_nil

theorem length_foldl_insertUnique (l : List String) :
    (l.foldl insertUnique []).length = l.toFinset.card := by
  rw [← List.toFinset_card_of_nodup (foldl_insertUnique_nodup l [] List.nodup_nil),
    foldl_insertUnique_toFinset]
  simp

/-- Helper: `computeKeywordScore` over already-extracted resume keywords
computes exactly the spec's set formula. -/
theorem computeKeywordScore_eq_spec (d resume : String) (prefStacks : List String) :
    (computeKeywordScore d (extractKeywords resume) prefStacks).score =
      keywordScoreSpec d resume prefStacks := by
  unfold computeKeywordScore keywordScoreSpec
  dsimp only
  set rk := extractKeywords resume with hrkdef
  set pk := prefStacks.map lowerStr with hpkdef
  set J := extractKeywords d with hJdef
  set R := rk.toFinset with hRdef
  set P := pk.toFinset with hPdef
  have hJn : J.Nodup := extractKeywords_nodup d
  have hmn : (J.filter (fun k => decide (k ∈ rk) || decide (k ∈ pk))).Nodup :=
    hJn.filter _
  have hmt : (J.filter (fun k => decide (k ∈ rk) || decide (k ∈ pk))).toFinset =
      J.toFinset ∩ (R ∪ P) := by
    ext x
    simp [List.mem_filter, Finset.mem_inter, Finset.mem_union, List.mem_toFinset,
      hRdef, hPdef]
  have hml : (J.filter (fun k => decide (k ∈ rk) || decide (k ∈ pk))).length =
      (J.toFinset ∩ (R ∪ P)).card := by
    rw [← hmt, List.toFinset_card_of_nodup hmn]
  have hpn : ((J.filter (fun k => decide (k ∈ rk) || decide (k ∈ pk))).filter
      (fun k => decide (k ∈ pk))).Nodup := hmn.filter _
  have hpt : ((J.filter (fun k => decide (k ∈ rk) || decide (k ∈ pk))).filter
      (fun k => decide (k ∈ pk))).toFinset = (J.toFinset ∩ (R ∪ P)) ∩ P := by
    rw [← hmt]
    ext x
    simp only [List.mem_filter, List.mem_toFinset, Finset.mem_inter,
      Bool.and_eq_true, decide_eq_true_iff, Bool.or_eq_true, hPdef]
  have hpl : ((J.filter (fun k => decide (k ∈ rk) || decide (k ∈ pk))).filter
      (fun k => decide (k ∈ pk))).length = ((J.toFinset ∩ (R ∪ P)) ∩ P).card := by
    rw [← hpt, List.toFinset_card_of_nodup hpn]
  have htl : ((rk ++ pk).foldl insertUnique []).length = (R ∪ P).card := by
    rw [length_foldl_insertUnique, List.toFinset_append]
  rw [hml, hpl, htl]
  by_cases hU : R ∪ P = ∅
  · rw [if_neg, if_pos hU]
    rw [hU]
    simp
  · have hpos : 0 < (R ∪ P).card :=
      Finset.card_pos.mpr (Finset.nonempty_iff_ne_empty.mpr hU)
    rw [if_pos hpos, if_neg hU]
    congr 1
    ring

/-- C3: for every job with a non-empty description, the keyword component
of the score equals the spec's formula: with `R` the resume-extracted
keywords, `P` the lowercased preferred-stack terms and `M` the
intersection of the listing's extracted keywords with `R ∪ P`, it is
`min 1 ((|M| + 0.5*|M ∩ P|)/|R ∪ P|)`, and `0` when `R ∪ P` is empty. -/
theorem keywordScore_matches_spec (job : JobInput) (settings : Settings) (d : String)
    (hd : job.description = some d) (hne : d ≠ "") :
    (scoreJob job settings).breakdown.keyword =
      keywordScoreSpec d settings.resume settings.preferredStacks := by
  by_cases hb : isBlank ((job.description).getD "") = true
  · rw [scoreJob_of_blank job settings hb]
    have hdb : isBlank d = true := by rw [hd] at hb; simpa using hb
    have hJ : extractKeywords d = [] := by
      unfold extractKeywords
      rw [if_pos hdb]
    unfold keywordScoreSpec
    dsimp only
    rw [hJ]
    by_cases hU : (extractKeywords settings.resume).toFinset ∪
        (settings.preferredStacks.map lowerStr).toFinset = ∅
    · rw [if_pos hU]
    · rw [if_neg hU]
      simp
  · have hkb : (scoreJob job settings).breakdown.keyword =
        (computeKeywordScore ((job.description).getD "")
          (extractKeywords settings.resume) settings.preferredStacks).score := by
      unfold scoreJob
      simp only [hb, if_false, Bool.false_eq_true]
    rw [hkb, hd]
    simp only [Option.getD_some]
    exact computeKeywordScore_eq_spec d settings.resume settings.preferredStacks

theorem keywordScore_matches_spec_witness :
    (scoreJob { description := some "python" } sampleSettings).breakdown.keyword =
      keywordScoreSpec "python" sampleSettings.resume sampleSettings.preferredStacks :=
  keywordScore_matches_spec { description := some "python" } sampleSettings "python"
    rfl (by decide)

/-- C4 counterexample: with text matching no location keyword set and no
city, a user whose only explicit preference is onsite
(`{remote: false, hybrid: false, onsite: true}`) gets location score `0`,
not the claimed `-0.5`. -/
theorem locationScore_unknown_text_cex :
    (remoteKeywords.any (fun k => strContains (locText none "qqq") k) = false) ∧
    (hybridKeywords.any (fun k => strContains (locText none "qqq") k) = false) ∧
    (onsiteKeywords.any (fun k => strContains (locText none "qqq") k) = false) ∧
    (LocationPreferences.mk false false true []).cities = [] ∧
    ((LocationPreferences.mk false false true []).remote ||
      (LocationPreferences.mk false false true []).hybrid ||
      (LocationPreferences.mk false false true []).onsite) = true ∧
    (computeLocationScore none "qqq" (LocationPreferences.mk false false true [])).score = 0 ∧
    (0 : ℚ) ≠ -(1/2) := by
  refine ⟨by decide, by decide, by decide, rfl, rfl, by decide, by norm_num⟩

/-! ## Storage theorems -/

theorem pruneByScore_def (s : List Job) (N : ℕ) :
    pruneByScore s N =
      if (List.insertionSort scoreGE (s.filter (fun j => j.score.isSome))).length ≤ N
      then s
      else deleteManyStore s
        (((List.insertionSort scoreGE
          (s.filter (fun j => j.score.isSome))).drop N).map Job.id) := rfl

theorem deleteDecided_def (s : List Job) (now olderThanDays : ℤ) :
    deleteDecided s now olderThanDays = deleteManyStore s
      ((s.filter (fun j => j.decision.isSome &&
        decide (j.lastUpdated < now - olderThanDays * MS_PER_DAY))).map Job.id) := rfl

/-- C6: `pruneByScore keepTopN` deletes only score-bearing listings;
listings without a `score` are never deleted and never occupy a kept slot
(when there is overflow, exactly `keepTopN` scored listings remain); every
deleted listing scores no higher than any kept scored listing; and when at
most `keepTopN` listings carry a score the call is a no-op. -/
theorem pruneByScore_rank_pruning (s : List Job) (N : ℕ)
    (hids : (s.map Job.id).Nodup) :
    ((s.filter (fun j => j.score.isSome)).length ≤ N → pruneByScore s N = s) ∧
    (∀ j ∈ s, j.score = none → j ∈ pruneByScore s N) ∧
    (N < (s.filter (fun j => j.score.isSome)).length →
      ((pruneByScore s N).filter (fun j => j.score.isSome)).length = N) ∧
    (∀ j ∈ pruneByScore s N, j.score.isSome = true →
      ∀ d ∈ s, d ∉ pruneByScore s N → scoreVal d ≤ scoreVal j) ∧
    (∀ j ∈ pruneByScore s N, j ∈ s) := by
  have hinj : ∀ a ∈ s, ∀ b ∈ s, a.id = b.id → a = b :=
    fun a ha b hb h => List.inj_on_of_nodup_map hids ha hb h
  have hnodup_s : s.Nodup := hids.of_map Job.id
  by_cases hle : (List.insertionSort scoreGE
      (s.filter (fun j => j.score.isSome))).length ≤ N
  · have hps : pruneByScore s N = s := by rw [pruneByScore_def, if_pos hle]
    have hlen : (List.insertionSort scoreGE
        (s.filter (fun j => j.score.isSome))).length =
        (s.filter (fun j => j.score.isSome)).length :=
      (List.perm_insertionSort scoreGE _).length_eq
    refine ⟨fun _ => hps, fun j hj _ => by rw [hps]; exact hj, fun hlt => ?_, ?_, ?_⟩
    · omega
    · intro j _ _ d hds hdnot
      rw [hps] at hdnot
      exact absurd hds hdnot
    · intro j hj
      rwa [hps] at hj
  · simp only [pruneByScore_def, if_neg hle]
    have hlt : N < (List.insertionSort scoreGE
        (s.filter (fun j => j.score.isSome))).length := Nat.lt_of_not_le hle
    set scored := s.filter (fun j => j.score.isSome) with hscdef
    set sorted := List.insertionSort scoreGE scored with hsodef
    have hperm : List.Perm sorted scored := List.perm_insertionSort scoreGE scored
    have hsorted : List.Sorted scoreGE sorted := List.sorted_insertionSort scoreGE scored
    have hnodup_scored : scored.Nodup := hnodup_s.filter _
    have hnodup_sorted : sorted.Nodup := hperm.nodup_iff.mpr hnodup_scored
    have hmem_sorted_s : ∀ j ∈ sorted, j ∈ s :=
      fun j hj => (List.mem_filter.mp (hperm.mem_iff.mp hj)).1
    set toDel := (sorted.drop N).map Job.id with htddef
    have hid_iff : ∀ j ∈ s, (j.id ∈ toDel ↔ j ∈ sorted.drop N) := by
      intro j hj
      constructor
      · intro hid
        rcases List.mem_map.mp hid with ⟨d, hd, hdid⟩
        have hds : d ∈ s := hmem_sorted_s d (List.mem_of_mem_drop hd)
        rwa [hinj d hds j hj hdid] at hd
      · intro hmem
        exact List.mem_map_of_mem Job.id hmem
    have hres : ∀ j ∈ s, (j ∈ deleteManyStore s toDel ↔ j ∉ sorted.drop N) := by
      intro j hj
      unfold deleteManyStore
      rw [List.mem_filter]
      simp [hj, hid_iff j hj]
    refine ⟨?_, ?_, ?_, ?_, ?_⟩
    · intro h
      rw [← hperm.length_eq] at h
      omega
    · intro j hj hnone
      refine (hres j hj).mpr ?_
      intro hdrop
      have h1 : j ∈ scored := hperm.mem_iff.mp (List.mem_of_mem_drop hdrop)
      have h2 := (List.mem_filter.mp h1).2
      rw [hnone] at h2
      simp at h2
    · intro hNlt
      have hcomm : (deleteManyStore s toDel).filter (fun j => j.score.isSome) =
          scored.filter (fun j => !(decide (j.id ∈ toDel))) := by
        unfold deleteManyStore
        rw [hscdef]
        exact List.filter_comm _ _ s
      have hpermf : List.Perm
          (sorted.filter (fun j => !(decide (j.id ∈ toDel))))
          (scored.filter (fun j => !(decide (j.id ∈ toDel)))) :=
        hperm.filter _
      have hdropfilter : (sorted.drop N).filter
          (fun j => !(decide (j.id ∈ toDel))) = [] := by
        rw [List.filter_eq_nil_iff]
        intro d hd
        simp only [Bool.not_eq_true', decide_eq_false_iff_not, Decidable.not_not]
        exact List.mem_map_of_mem Job.id hd
      have htakefilter : (sorted.take N).filter
          (fun j => !(decide (j.id ∈ toDel))) = sorted.take N := by
        rw [List.filter_eq_self]
        intro x hx
        have hxs : x ∈ s := hmem_sorted_s x (List.mem_of_mem_take hx)
        simp only [Bool.not_eq_true', decide_eq_false_iff_not]
        intro hxin
        rcases List.mem_map.mp hxin with ⟨d, hd, hdid⟩
        have hds : d ∈ s := hmem_sorted_s d (List.mem_of_mem_drop hd)
        have hdx : d = x := hinj d hds x hxs hdid
        have hdisj : (sorted.take N).Disjoint (sorted.drop N) := by
          apply List.disjoint_of_nodup_append
          rw [List.take_append_drop]
          exact hnodup_sorted
        exact hdisj hx (hdx ▸ hd)
      calc ((deleteManyStore s toDel).filter (fun j => j.score.isSome)).length
          = (scored.filter (fun j => !(decide (j.id ∈ toDel)))).length := by
            rw [hcomm]
        _ = (sorted.filter (fun j => !(decide (j.id ∈ toDel)))).length :=
            hpermf.length_eq.symm
        _ = ((sorted.take N ++ sorted.drop N).filter
              (fun j => !(decide (j.id ∈ toDel)))).length := by
            rw [List.take_append_drop]
        _ = (sorted.take N).length := by
            rw [List.filter_append, hdropfilter, htakefilter, List.append_nil]
        _ = N := by
            rw [List.length_take]
            omega
    · intro j hjres hjsome d hds hdnot
      have hjs : j ∈ s := List.mem_of_mem_filter hjres
      have hjdrop : j ∉ sorted.drop N := (hres j hjs).mp hjres
      have hddrop : d ∈ sorted.drop N := by
        by_contra hc
        exact hdnot ((hres d hds).mpr hc)
      have hjsorted : j ∈ sorted :=
        hperm.mem_iff.mpr (List.mem_filter.mpr ⟨hjs, hjsome⟩)
      have hjsplit : j ∈ sorted.take N ++ sorted.drop N := by
        rw [List.take_append_drop]
        exact hjsorted
      have hjtake : j ∈ sorted.take N := by
        rcases List.mem_append.mp hjsplit with h | h
        · exact h
        · exact absurd h hjdrop
      have hpw : List.Pairwise scoreGE (sorted.take N ++ sorted.drop N) := by
        rw [List.take_append_drop]
        exact hsorted
      exact (List.pairwise_append.mp hpw).2.2 j hjtake d hddrop
    · intro j hj
      exact List.mem_of_mem_filter hj

def jobNine : Job :=
  { id := "prune-1", url := "prune-1", title := "t", description := "d",
    score := some 9, firstSeen := 0, lastUpdated := 0 }

def jobEight : Job :=
  { id := "prune-2", url := "prune-2", title := "t", description := "d",
    score := some 8, firstSeen := 0, lastUpdated := 0 }

def jobSeven : Job :=
  { id := "prune-3", url := "prune-3", title := "t", description := "d",
    score := some 7, firstSeen := 0, lastUpdated := 0 }

def jobSix : Job :=
  { id := "prune-4", url := "prune-4", title := "t", description := "d",
    score := some 6, firstSeen := 0, lastUpdated := 0 }

def pruneStore : List Job := [jobNine, jobEight, jobSeven, jobSix]

theorem pruneByScore_rank_pruning_witness :
    pruneByScore pruneStore 10 = pruneStore :=
  (pruneByScore_rank_pruning pruneStore 10 (by decide)).1 (by decide)

/-- C7: `deleteDecided` deletes exactly the listings that both carry a
decision and whose last update is older than the cutoff; listings without
a decision are never deleted regardless of age. -/
theorem deleteDecided_decided_and_stale (s : List Job) (now olderThanDays : ℤ)
    (hids : (s.map Job.id).Nodup) :
    (∀ j ∈ s, (j ∈ deleteDecided s now olderThanDays ↔
      ¬(j.decision.isSome = true ∧
        j.lastUpdated < now - olderThanDays * MS_PER_DAY))) ∧
    (∀ j ∈ s, j.decision = none → j ∈ deleteDecided s now olderThanDays) ∧
    (∀ j ∈ deleteDecided s now olderThanDays, j ∈ s) := by
  have hinj : ∀ a ∈ s, ∀ b ∈ s, a.id = b.id → a = b :=
    fun a ha b hb h => List.inj_on_of_nodup_map hids ha hb h
  have hmain : ∀ j ∈ s, (j ∈ deleteDecided s now olderThanDays ↔
      ¬(j.decision.isSome = true ∧
        j.lastUpdated < now - olderThanDays * MS_PER_DAY)) := by
    intro j hj
    rw [deleteDecided_def]
    have hq : j.id ∈ (s.filter (fun k => k.decision.isSome &&
        decide (k.lastUpdated < now - olderThanDays * MS_PER_DAY))).map Job.id ↔
        (j.decision.isSome &&
          decide (j.lastUpdated < now - olderThanDays * MS_PER_DAY)) = true := by
      constructor
      · intro hid
        rcases List.mem_map.mp hid with ⟨d, hd, hdid⟩
        rcases List.mem_filter.mp hd with ⟨hds, hdq⟩
        rwa [hinj d hds j hj hdid] at hdq
      · intro hqj
        exact List.mem_map_of_mem Job.id (List.mem_filter.mpr ⟨hj, hqj⟩)
    unfold deleteManyStore
    rw [List.mem_filter]
    simp [hj, hq]
    cases hd : j.decision <;> simp [hd]
  refine ⟨hmain, ?_, ?_⟩
  · intro j hj hdec
    refine (hmain j hj).mpr ?_
    rw [hdec]
    simp
  · intro j hj
    rw [deleteDecided_def] at hj
    exact List.mem_of_mem_filter hj

def oldDecided : Job :=
  { id := "old-decided", url := "old-decided", title := "t", description := "d",
    decision := some Decision.thumbs_up, firstSeen := 0, lastUpdated := 0 }

def recentDecided : Job :=
  { id := "recent-decided", url := "recent-decided", title := "t", description := "d",
    decision := some Decision.thumbs_up, firstSeen := 0, lastUpdated := 3000000000 }

def undecidedJob : Job :=
  { id := "undecided", url := "undecided", title := "t", description := "d",
    decision := none, firstSeen := 0, lastUpdated := 0 }

def decidedStore : List Job := [oldDecided, recentDecided, undecidedJob]

theorem deleteDecided_decided_and_stale_witness :
    undecidedJob ∈ deleteDecided decidedStore 3000000000 30 :=
  (deleteDecided_decided_and_stale decidedStore 3000000000 30 (by decide)).2.1
    undecidedJob (by decide) rfl

/-- C8: the batch entry point scores every listing independently: the
`i`-th result exists exactly when the `i`-th input does and is the score
of that listing alone, so no listing's processing can affect — or block —
any other's. `scoreJob` itself is total, so every item completes. -/
theorem scoreJobs_per_item (jobs : List JobInput) (settings : Settings) (i : ℕ) :
    (scoreJobs jobs settings).get? i =
      (jobs.get? i).map (fun job => scoreJob job settings) := by
  unfold scoreJobs
  simp

/-- C9 (amended): `saveMany []` and `deleteMany []` resolve successfully
and leave every record unchanged — but each still opens one (no-op)
readwrite transaction, since the transaction is created before the batch
is inspected. -/
theorem saveMany_deleteMany_empty (s : List Job) :
    saveMany s [] = (Except.ok s, 1) ∧ deleteMany s [] = (Except.ok s, 1) := by
  constructor
  · rfl
  · unfold deleteMany deleteManyStore
    simp

/-- C9 counterexample: on the empty store and the empty batch, both calls
open one transaction, refuting "opens no transaction". -/
theorem saveMany_deleteMany_empty_cex :
    (saveMany ([] : List Job) []).2 = 1 ∧
    (deleteMany ([] : List Job) []).2 = 1 ∧ (1 : ℕ) ≠ 0 :=
  ⟨rfl, rfl, by decide⟩

/-- C10: `getByUrls` always resolves; every returned record's url is in
the input list; input urls without a matching record contribute nothing;
and a failing individual lookup is silently treated as a miss — the
result is the same as querying only the non-failing urls. -/
theorem getByUrls_silent_misses (s : List Job) (urls : List String)
    (fails : String → Bool) :
    (∀ j ∈ getByUrlsWithFaults s urls fails, j.url ∈ urls) ∧
    getByUrlsWithFaults s urls fails =
      getByUrls s (urls.filter (fun u => !(fails u))) ∧
    (∀ u ∈ urls, s.find? (fun j => j.url == u) = none →
      ∀ j ∈ getByUrlsWithFaults s urls fails, j.url ≠ u) := by
  refine ⟨?_, ?_, ?_⟩
  · intro j hj
    rcases List.mem_filterMap.mp hj with ⟨u, hu, hfu⟩
    by_cases hf : fails u
    · rw [if_pos hf] at hfu
      simp at hfu
    · rw [if_neg hf] at hfu
      have heq : j.url = u := by simpa using List.find?_some hfu
      rwa [heq]
  · unfold getByUrls getByUrlsWithFaults
    induction urls with
    | nil => rfl
    | cons u us ih =>
      by_cases hf : fails u
      · simpa [List.filterMap_cons, List.filter_cons, hf] using ih
      · simp only [List.filterMap_cons, List.filter_cons, hf, if_neg, if_pos,
          Bool.not_false, if_true, Bool.false_eq_true]
        cases hfind : s.find? (fun j => j.url == u) <;> simp [hfind, ih]
  · intro u hu hnone j hj hju
    rcases List.mem_filterMap.mp hj with ⟨u', hu', hfu'⟩
    by_cases hf : fails u'
    · rw [if_pos hf] at hfu'
      simp at hfu'
    · rw [if_neg hf] at hfu'
      have hjmem : j ∈ s := List.mem_of_find?_eq_some hfu'
      rw [List.find?_eq_none] at hnone
      exact hnone j hjmem (by simp [hju])

def urlJob : Job :=
  { id := "w", url := "u1", title := "t", description := "d",
    firstSeen := 0, lastUpdated := 0 }

theorem getByUrls_silent_misses_witness :
    urlJob.url ∈ ["u1", "u2"] :=
  (getByUrls_silent_misses [urlJob] ["u1", "u2"] (fun _ => false)).1
    urlJob (by decide)

end JobTriage
